import Mathlib

/-!
Verification development for the waveapps repository's canvas/graph subsystem:
the rate-limited frame scheduler, the particle canvas updater, the stdin data
ingest worker, and the reference-table / operation-queue drain protocol.

Conventions of the shallow embedding:
* Go `int64` render timestamps are modelled as `Int` (overflow never matters for
  the quantities involved: timestamps and small intervals).
* Go `float64` values are modelled as exact rationals `ℚ`; the claims checked
  here are structural equalities between identical arithmetic expressions, so
  rounding plays no role.
* Go channels used as single-shot cancellation signals are modelled by a
  generation counter: each `make(chan bool)` gets a fresh generation number and
  `close` records that generation in a set of fired generations.
-/

/-! ## FrameScheduler

Embeds the frame-rate gate of `CanvasUpdaterParticles`
(`src/unnamed/part_002`, lines 34-45, and `src/canvas-prompt.md` lines 144-148):

```
lastRenderTs := vdom.UseRef(ctx, int64(0))
...
if renderTs-lastRenderTs.Current < 30 {
    return nil
}
lastRenderTs.Current = renderTs
```

The state is the spec's `{lastAllowedTick, minIntervalTicks}` (§4.3); the code
instantiates `minIntervalTicks` with the constant `30` and initialises
`lastAllowedTick` (`lastRenderTs`) to `0`.
-/

structure FrameScheduler where
  lastAllowedTick : Int
  minIntervalTicks : Int
  deriving DecidableEq, Repr

/-- One `requestFrame(currentTick)` call: deny and leave the state alone when
`currentTick - lastAllowedTick < minIntervalTicks`, otherwise allow and record
`lastAllowedTick = currentTick`. -/
def requestFrame (s : FrameScheduler) (t : Int) : Bool × FrameScheduler :=
  if t - s.lastAllowedTick < s.minIntervalTicks then (false, s)
  else (true, { s with lastAllowedTick := t })

/-- Feed a stream of ticks through the scheduler, collecting the allow/deny
results in order. -/
def runTicks (s : FrameScheduler) : List Int → List Bool
  | [] => []
  | t :: rest =>
    let r := requestFrame s t
    r.1 :: runTicks r.2 rest

/-- The scheduler state the code starts from: `lastRenderTs` is initialised to
`0` and the interval constant is `30`. -/
def coldStartScheduler : FrameScheduler :=
  { lastAllowedTick := 0, minIntervalTicks := 30 }

/-- C1: `requestFrame(t)` returns `true` and sets `lastAllowedTick := t` iff
`t - lastAllowedTick ≥ minIntervalTicks`; on `false` the whole state (both
fields) is unchanged. -/
theorem requestFrame_gate (s : FrameScheduler) (t : Int) :
    ((requestFrame s t).1 = true ↔ s.minIntervalTicks ≤ t - s.lastAllowedTick)
    ∧ ((requestFrame s t).1 = true →
        (requestFrame s t).2 = { s with lastAllowedTick := t })
    ∧ ((requestFrame s t).1 = false → (requestFrame s t).2 = s) := by
  unfold requestFrame
  split <;> rename_i h <;> refine ⟨?_, ?_, ?_⟩ <;> simp <;> omega

/-- Witness for C1 at the concrete state `{lastAllowedTick := 0,
minIntervalTicks := 30}`: tick `40` is allowed and recorded, tick `5` is denied
and leaves the state unchanged. -/
theorem requestFrame_gate_witness :
    (requestFrame ⟨0, 30⟩ 40).2 = ⟨40, 30⟩ ∧ (requestFrame ⟨0, 30⟩ 5).2 = ⟨0, 30⟩ :=
  ⟨(requestFrame_gate ⟨0, 30⟩ 40).2.1 (by decide),
   (requestFrame_gate ⟨0, 30⟩ 5).2.2 (by decide)⟩

/-- C2 counterexample: from the code's cold-start state (`lastRenderTs = 0`,
interval `30`) the tick stream `0, 5, 40` yields deny, deny, allow — not the
claimed allow, deny, allow; in particular the very first request, at tick `0`,
is denied. -/
theorem coldStart_stream_cex :
    runTicks coldStartScheduler [0, 5, 40] = [false, false, true]
    ∧ [false, false, true] ≠ [true, false, true]
    ∧ (requestFrame coldStartScheduler 0).1 = false := by
  decide

/-- C2 amended: from the code's cold-start state (`lastRenderTs` initialised to
`0`) with `minIntervalTicks = 30`, the stream `0, 5, 40` yields deny, deny,
allow, and the very first request is allowed iff its tick is at least
`minIntervalTicks = 30` (so any realistic millisecond render timestamp is
allowed at cold start). -/
theorem coldStart_stream_amended :
    runTicks coldStartScheduler [0, 5, 40] = [false, false, true]
    ∧ ∀ t : Int, (requestFrame coldStartScheduler t).1 = true ↔ 30 ≤ t := by
  refine ⟨by decide, fun t => ?_⟩
  have h0 : coldStartScheduler.lastAllowedTick = 0 := rfl
  have h30 : coldStartScheduler.minIntervalTicks = 30 := rfl
  unfold requestFrame
  rw [h0, h30]
  split <;> rename_i h <;> simp <;> omega

/-- Witness for the amended C2 at tick `35`: the first request after cold start
with tick `35 ≥ 30` is allowed. -/
theorem coldStart_stream_amended_witness :
    (requestFrame coldStartScheduler 35).1 = true :=
  (coldStart_stream_amended.2 35).mpr (by decide)

/-! ## Particles

Embeds `Particle` and `updateParticles` from `src/unnamed/part_002`
(lines 19-25 and 114-130). Go `float64` fields are modelled as exact rationals;
the string colour field is kept as a string. -/

structure Particle where
  x : ℚ
  y : ℚ
  velocityX : ℚ
  velocityY : ℚ
  color : String
  size : ℚ
  deriving DecidableEq, Repr

/-- The per-particle body of the `updateParticles` loop: advance the position by
the velocity, then negate a velocity component when the advanced coordinate is
`≤ 0` or `≥ 300` (the "bounce off edges" tests `particle.X <= 0 ||
particle.X >= 300` run on the already-advanced coordinate). -/
def updateParticle (p : Particle) : Particle :=
  let x := p.x + p.velocityX
  let y := p.y + p.velocityY
  let vx := if x ≤ 0 ∨ 300 ≤ x then -p.velocityX else p.velocityX
  let vy := if y ≤ 0 ∨ 300 ≤ y then -p.velocityY else p.velocityY
  { x := x, y := y, velocityX := vx, velocityY := vy, color := p.color, size := p.size }

/-- `updateParticles` writes the updated particle back at the same index
(`particles[i] = particle`), i.e. it maps `updateParticle` over the list. -/
def updateParticles (ps : List Particle) : List Particle :=
  ps.map updateParticle

/-- The claim's wording of the bounce rule (for the C10 comparison): negate the
velocity exactly when the advanced coordinate leaves the closed interval
`[0, 300]`. -/
def claimedBounce (v coord : ℚ) : ℚ :=
  if ¬(0 ≤ coord ∧ coord ≤ 300) then -v else v

/-- Per-particle update as worded by claim C10: position advanced by the
velocity, velocities negated when the advanced coordinate leaves `[0, 300]`,
colour and size unchanged. -/
def claimedUpdateParticle (p : Particle) : Particle :=
  { x := p.x + p.velocityX, y := p.y + p.velocityY,
    velocityX := claimedBounce p.velocityX (p.x + p.velocityX),
    velocityY := claimedBounce p.velocityY (p.y + p.velocityY),
    color := p.color, size := p.size }

/-- C10 counterexample: for the particle `⟨299, 100, 1, 0, "c", 5⟩` the advanced
x-coordinate is `300`, which does **not** leave `[0, 300]`, yet the code negates
`VelocityX` (its test is `x >= 300`); so `updateParticles` differs from the
claim's description at this input. -/
theorem updateParticles_boundary_cex :
    updateParticles [⟨299, 100, 1, 0, "c", 5⟩]
      ≠ [claimedUpdateParticle ⟨299, 100, 1, 0, "c", 5⟩]
    ∧ (0 ≤ (299 : ℚ) + 1 ∧ (299 : ℚ) + 1 ≤ 300)
    ∧ (updateParticles [⟨299, 100, 1, 0, "c", 5⟩]).map Particle.velocityX = [-1] := by
  refine ⟨?_, by norm_num, ?_⟩ <;>
    norm_num [updateParticles, updateParticle, claimedUpdateParticle, claimedBounce,
      Particle.mk.injEq]

/-- C10 amended: `updateParticles` maps `updateParticle` index-wise (same
length, element `i` of the output is `updateParticle` of element `i` of the
input), and `updateParticle` keeps `Color` and `Size`, advances `X`/`Y` by the
velocities, and negates a velocity component exactly when the advanced
coordinate is `≤ 0` or `≥ 300` (so also at exactly `0` and `300`, which are
still inside `[0, 300]`). -/
theorem updateParticles_amended :
    (∀ ps : List Particle, (updateParticles ps).length = ps.length
      ∧ ∀ i : ℕ, (updateParticles ps).get? i = (ps.get? i).map updateParticle)
    ∧ ∀ p : Particle,
        (updateParticle p).color = p.color
        ∧ (updateParticle p).size = p.size
        ∧ (updateParticle p).x = p.x + p.velocityX
        ∧ (updateParticle p).y = p.y + p.velocityY
        ∧ (updateParticle p).velocityX =
            (if p.x + p.velocityX ≤ 0 ∨ 300 ≤ p.x + p.velocityX
             then -p.velocityX else p.velocityX)
        ∧ (updateParticle p).velocityY =
            (if p.y + p.velocityY ≤ 0 ∨ 300 ≤ p.y + p.velocityY
             then -p.velocityY else p.velocityY) := by
  refine ⟨fun ps => ⟨?_, fun i => ?_⟩, fun p => ?_⟩
  · simp [updateParticles]
  · simp [updateParticles]
  · exact ⟨rfl, rfl, rfl, rfl, rfl, rfl⟩

/-! ## JSON-compatible parameter values

Operation parameters (`Params []any{...}` in the Go sources) are JSON-compatible
values: numbers, strings, booleans, nulls and arrays. -/

inductive JVal where
  | null
  | bool (b : Bool)
  | num (q : ℚ)
  | str (s : String)
  | arr (xs : List JVal)

/-- The exact value of the `float64` constant `2 * math.Pi` used as the end
angle of the `arc` operations: the 53-bit rounding of `2π`,
`884279719003555 / 2^47`. -/
def twoPi : ℚ := 884279719003555 / 140737488355328

/-! ## CanvasUpdaterParticles render effect

Embeds the body of the `vdom.UseEffect` callback of `CanvasUpdaterParticles`
(`src/unnamed/part_002`, lines 38-83) as a pure function from the effect's
inputs (whether the canvas ref is attached, the current render timestamp, the
`lastRenderTs` ref, and the current particle state) to its observable outcome:
the particle state written by `setParticles`, the value left in `lastRenderTs`,
the list of canvas operations queued by `QueueRefOp` in order, and whether the
delayed `SendAsyncInitiation` wake-up goroutine was spawned. -/

structure EffectOutcome where
  particles : List Particle
  lastRenderTs : Int
  ops : List (String × List JVal)
  wakeupScheduled : Bool

/-- The four operations queued per particle: `fillStyle` with its colour,
`beginPath`, `arc` at its position with its size and angles `0, 2π`, `fill`. -/
def particleDrawOps (p : Particle) : List (String × List JVal) :=
  [("fillStyle", [JVal.str p.color]),
   ("beginPath", []),
   ("arc", [JVal.num p.x, JVal.num p.y, JVal.num p.size, JVal.num 0, JVal.num twoPi]),
   ("fill", [])]

/-- The render effect: bail out (returning everything unchanged and queueing
nothing) when the canvas ref is unattached or when
`renderTs - lastRenderTs < 30`; otherwise record `lastRenderTs := renderTs`,
update the particles, queue `clearRect` followed by each particle's draw
operations, and schedule the delayed wake-up. -/
def canvasUpdaterEffect (hasCurrent : Bool) (renderTs lastTs : Int)
    (ps : List Particle) : EffectOutcome :=
  if !hasCurrent then
    { particles := ps, lastRenderTs := lastTs, ops := [], wakeupScheduled := false }
  else if renderTs - lastTs < 30 then
    { particles := ps, lastRenderTs := lastTs, ops := [], wakeupScheduled := false }
  else
    let newPs := updateParticles ps
    { particles := newPs,
      lastRenderTs := renderTs,
      ops := ("clearRect", [JVal.num 0, JVal.num 0, JVal.num 300, JVal.num 300])
               :: (newPs.map particleDrawOps).flatten,
      wakeupScheduled := true }

/-- C9: when the canvas ref is unattached or the frame gate denies
(`renderTs - lastRenderTs < 30`), the render effect has no effect at all: the
particles and `lastRenderTs` keep their previous values, no canvas operation is
queued, and no delayed wake-up is scheduled. -/
theorem effect_gate_noop (hasCurrent : Bool) (renderTs lastTs : Int)
    (ps : List Particle)
    (h : hasCurrent = false ∨ renderTs - lastTs < 30) :
    canvasUpdaterEffect hasCurrent renderTs lastTs ps
      = { particles := ps, lastRenderTs := lastTs, ops := [], wakeupScheduled := false } := by
  unfold canvasUpdaterEffect
  rcases h with h | h
  · simp [h]
  · cases hc : hasCurrent
    · simp
    · simp [h]

/-- Witness for C9: with the ref attached but the gate denying
(`renderTs = 40`, `lastRenderTs = 20`, gap `20 < 30`), the effect leaves the
one-particle state, the timestamp, the queue and the wake-up untouched. -/
theorem effect_gate_noop_witness :
    canvasUpdaterEffect true 40 20 [⟨1, 2, 3, 4, "c", 5⟩]
      = { particles := [⟨1, 2, 3, 4, "c", 5⟩], lastRenderTs := 20,
          ops := [], wakeupScheduled := false } :=
  effect_gate_noop true 40 20 [⟨1, 2, 3, 4, "c", 5⟩] (Or.inr (by decide))

/-! ## Line scanning and numeric parsing

Models the external collaborators of the ingest worker in
`src/graph/graph-main.go` lines 250-268: `bufio.Scanner` line splitting
(`bufio.ScanLines`: tokens are separated by `'\n'`, a trailing `'\r'` is
stripped, a final empty token produced by a terminating newline is not
emitted), `strings.TrimSpace`, and `strconv.ParseFloat` restricted to plain
signed decimal numerals (exponents, hex floats, `Inf`/`NaN` and underscores are
omitted: no analysed input stream contains them, and they do not affect which
of the claims' lines parse). -/

/-- Split a character list at every occurrence of `sep`; `acc` holds the
(reversed) characters of the current token. -/
def splitCharAux (sep : Char) : List Char → List Char → List (List Char)
  | [], acc => [acc.reverse]
  | c :: rest, acc =>
    if c = sep then acc.reverse :: splitCharAux sep rest []
    else splitCharAux sep rest (c :: acc)

/-- Strip one trailing carriage return, as `bufio.ScanLines` does. -/
def dropCR (cs : List Char) : List Char :=
  match cs.getLast? with
  | some c => if c = '\r' then cs.dropLast else cs
  | none => cs

/-- `bufio.Scanner` with the default `ScanLines` split function: the sequence
of lines it yields from the full input text. -/
def scanLines (s : String) : List String :=
  let parts := splitCharAux '\n' s.data []
  let parts := if parts.getLast? = some [] then parts.dropLast else parts
  parts.map (fun cs => String.mk (dropCR cs))

/-- ASCII whitespace (all the whitespace occurring in the analysed streams). -/
def isSpaceChar (c : Char) : Bool :=
  c = ' ' || c = '\t' || c = '\n' || c = '\r'

/-- `strings.TrimSpace`: drop leading and trailing whitespace. -/
def trimSpace (s : String) : String :=
  String.mk (((s.data.dropWhile isSpaceChar).reverse.dropWhile isSpaceChar).reverse)

def allDigits (cs : List Char) : Bool :=
  cs.all (fun c => '0' ≤ c && c ≤ '9')

def digitsToNat (cs : List Char) : Nat :=
  cs.foldl (fun a c => a * 10 + (c.toNat - 48)) 0

/-- Parse an unsigned decimal numeral (`"12"`, `"3.5"`, `"1."`, `".5"`); any
other shape — in particular the empty string or any non-digit character —
fails, exactly as `strconv.ParseFloat` fails on it. -/
def parseUnsigned (cs : List Char) : Option ℚ :=
  match splitCharAux '.' cs [] with
  | [ip] =>
    if !ip.isEmpty && allDigits ip then some ((digitsToNat ip : ℚ)) else none
  | [ip, fp] =>
    if (!ip.isEmpty || !fp.isEmpty) && allDigits ip && allDigits fp then
      some ((digitsToNat ip : ℚ) + (digitsToNat fp : ℚ) / (10 : ℚ) ^ fp.length)
    else none
  | _ => none

/-- `strconv.ParseFloat(text, 64)` on plain signed decimal numerals: `none`
models a parse error. -/
def parseNumber (s : String) : Option ℚ :=
  match s.data with
  | '+' :: rest => parseUnsigned rest
  | '-' :: rest => (parseUnsigned rest).map (fun q => -q)
  | cs => parseUnsigned cs

/-! ## DataIngestWorker

Embeds the reader lifecycle of the graph app (`src/graph/graph-main.go`,
lines 243-276): the `UseEffect` setup (`start`), its cleanup (`stop`), and one
iteration of the reader goroutine's loop per arriving input line.

The Go state is
```
readerState := vdom.UseRef(ctx, struct{ done chan bool; active bool }{...})
```
Channels are modelled by generation numbers: `doneGen` identifies the channel
currently stored in `readerState.Current.done`, and `firedGens` records the
generations of every channel that has been `close`d. The goroutine's loop body
is
```
for scanner.Scan() {
    select {
    case <-readerState.Current.done:   // re-reads the *current* field
        return
    default:
        text := strings.TrimSpace(scanner.Text())
        if value, err := strconv.ParseFloat(text, 64); err == nil {
            setPointsFn(func(points []DataPoint) []DataPoint {
                return append(points, DataPoint{Value: value}) })
            setUpdateCountFn(func(updateCount int) int { return updateCount + 1 })
            AppClient.SendAsyncInitiation()
        }
    }
}
```
so on each line the loop first checks whether the channel **currently** stored
in the ref — generation `doneGen` — has been closed; only a parse success
appends to the shared `points` state, bumps `updateCount` and requests a
render. `loops` lists the read loops that have been spawned (by the generation
current at their spawn time) and not yet exited. -/

structure WorkerSys where
  active : Bool
  doneGen : Nat
  firedGens : List Nat
  loops : List Nat
  points : List ℚ
  updateCount : Nat
  renderRequests : Nat
  deriving DecidableEq, Repr

/-- The state before the effect first runs: inactive, channel generation `0`
(the `make(chan bool)` in the `UseRef` initialiser), nothing fired, no loop,
empty shared state. -/
def initWorker : WorkerSys :=
  { active := false, doneGen := 0, firedGens := [], loops := [],
    points := [], updateCount := 0, renderRequests := 0 }

/-- `start()` — the `UseEffect` setup: if `readerState.Current.active` it does
nothing; otherwise it sets `active` and spawns the reader goroutine. -/
def startStep (s : WorkerSys) : WorkerSys :=
  if s.active then s
  else { s with active := true, loops := s.loops ++ [s.doneGen] }

/-- `stop()` — the effect cleanup: `close(readerState.Current.done)` (the
current generation becomes fired), `active = false`, and
`done = make(chan bool)` (a fresh, never-fired generation replaces it). -/
def stopStep (s : WorkerSys) : WorkerSys :=
  { s with firedGens := s.doneGen :: s.firedGens,
           active := false,
           doneGen := s.doneGen + 1 }

/-- One arriving input line, handled by a running read loop: if no loop is
running the line is not consumed by anyone; if the channel currently stored in
the ref has been closed, the loop returns (exits) without touching the state;
otherwise the line is trimmed and parsed, a success appends the value and
requests a render, a failure is silently skipped. -/
def lineStep (s : WorkerSys) (line : String) : WorkerSys :=
  if s.loops = [] then s
  else if s.doneGen ∈ s.firedGens then { s with loops := s.loops.tail }
  else
    match parseNumber (trimSpace line) with
    | some v =>
      { s with points := s.points ++ [v],
               updateCount := s.updateCount + 1,
               renderRequests := s.renderRequests + 1 }
    | none => s

/-- Feed a list of input lines to the worker in order. -/
def runLines (s : WorkerSys) (ls : List String) : WorkerSys :=
  ls.foldl lineStep s

/-- After a stop followed by a start, the channel generation currently in the
ref is not fired: stop fired the old generation and installed generation
`doneGen + 1`, which is above everything in `firedGens`. -/
lemma stopStart_gen_not_fired (s : WorkerSys)
    (h2 : ∀ g ∈ s.firedGens, g < s.doneGen) :
    (startStep (stopStep s)).doneGen ∉ (startStep (stopStep s)).firedGens := by
  simp only [startStep, stopStep]
  simp only [Bool.false_eq_true, if_false]
  simp only [List.mem_cons, not_or]
  exact ⟨by omega, fun hmem => absurd (h2 _ hmem) (by omega)⟩

/-- After a stop followed by a start, a read loop is running: the start
appended one to `loops`. -/
lemma stopStart_loops_ne_nil (s : WorkerSys) :
    (startStep (stopStep s)).loops ≠ [] := by
  simp [startStep, stopStep]

/-- C3: feeding the started ingest worker the input stream `"1\n2\nabc\n3\n"`
leaves the shared state holding exactly `[1, 2, 3]` with three updates and
three render requests; `"abc"` fails to parse, and in general a line whose
trimmed text fails to parse leaves the shared state, the update counter and the
render-request count unchanged (no error is modelled: `lineStep` is total),
while a parse success on a live loop appends the value in input order and
requests a render. -/
theorem ingest_scenario_parse :
    (runLines (startStep initWorker) (scanLines "1\n2\nabc\n3\n")).points = [1, 2, 3]
    ∧ (runLines (startStep initWorker) (scanLines "1\n2\nabc\n3\n")).updateCount = 3
    ∧ (runLines (startStep initWorker) (scanLines "1\n2\nabc\n3\n")).renderRequests = 3
    ∧ parseNumber (trimSpace "abc") = none
    ∧ (∀ s line, parseNumber (trimSpace line) = none →
        (lineStep s line).points = s.points
        ∧ (lineStep s line).updateCount = s.updateCount
        ∧ (lineStep s line).renderRequests = s.renderRequests)
    ∧ (∀ s line v, s.loops ≠ [] → s.doneGen ∉ s.firedGens →
        parseNumber (trimSpace line) = some v →
        (lineStep s line).points = s.points ++ [v]
        ∧ (lineStep s line).renderRequests = s.renderRequests + 1) := by
  refine ⟨by decide, by decide, by decide, by decide, ?_, ?_⟩
  · intro s line h
    by_cases h1 : s.loops = []
    · simp [lineStep, h1]
    · by_cases hm : s.doneGen ∈ s.firedGens
      · simp [lineStep, h1, hm]
      · simp [lineStep, h1, hm, h]
  · intro s line v h1 hm h
    simp [lineStep, h1, hm, h]

/-- Witness for C3: on the started worker (one live loop, nothing fired), the
line `" 7 "` is trimmed, parsed and appended, while the line `"abc"` is
skipped. -/
theorem ingest_scenario_parse_witness :
    (lineStep (startStep initWorker) " 7 ").points = [7]
    ∧ (lineStep (startStep initWorker) "abc").points = [] := by
  constructor
  · have h := (ingest_scenario_parse.2.2.2.2.2 (startStep initWorker) " 7 " 7
      (by decide) (by decide) (by decide)).1
    simpa [startStep, initWorker] using h
  · have h := (ingest_scenario_parse.2.2.2.2.1 (startStep initWorker) "abc"
      (by decide)).1
    simpa [startStep, initWorker] using h

/-- C6: `start()` on an already-active worker is a no-op — the state is
untouched, so no second loop is spawned, the cancellation signal is not
replaced, and the set of fired signals is unchanged. -/
theorem start_active_noop (s : WorkerSys) (h : s.active = true) :
    startStep s = s
    ∧ (startStep s).loops = s.loops
    ∧ (startStep s).doneGen = s.doneGen
    ∧ (startStep s).firedGens = s.firedGens := by
  have he : startStep s = s := by simp [startStep, h]
  exact ⟨he, by rw [he], by rw [he], by rw [he]⟩

/-- Witness for C6 on a concrete active worker with one live loop: the state
is exactly preserved. -/
theorem start_active_noop_witness :
    startStep ⟨true, 1, [0], [1], [5], 1, 1⟩ = ⟨true, 1, [0], [1], [5], 1, 1⟩ :=
  (start_active_noop ⟨true, 1, [0], [1], [5], 1, 1⟩ rfl).1

/-- C7, evaluated at the failing input: start the worker, run `stop()`, then
let the line `"42"` arrive. `stop()` closed generation `0` but immediately
replaced the ref's channel by the fresh generation `1`; the still-running loop
re-reads `readerState.Current.done`, finds generation `1` unfired, and appends
`42` to the shared state and requests a render — contradicting the claim that
no SharedStateCell update can follow `stop()`. -/
theorem stop_not_observed_bug :
    (stopStep (startStep initWorker)).firedGens = [0]
    ∧ (stopStep (startStep initWorker)).doneGen = 1
    ∧ (stopStep (startStep initWorker)).loops = [0]
    ∧ (runLines (stopStep (startStep initWorker)) ["42"]).points = [42]
    ∧ (runLines (stopStep (startStep initWorker)) ["42"]).renderRequests = 1 := by
  decide

/-- C8: every `stop()` fires the current cancellation signal and replaces it by
a fresh one: the fired generation is recorded, the new generation is `+1` and
unfired; after a subsequent `start()` the signal the new loop observes is one
the earlier `stop()` never fired, and the restarted worker keeps processing
input — any later line that parses is appended and triggers a render request
(hypotheses: every fired generation is below the current one, the invariant
every reachable worker state satisfies). -/
theorem stop_fresh_signal (s : WorkerSys)
    (hInv : ∀ g ∈ s.firedGens, g < s.doneGen) :
    s.doneGen ∈ (stopStep s).firedGens
    ∧ (stopStep s).doneGen = s.doneGen + 1
    ∧ (stopStep s).doneGen ∉ (stopStep s).firedGens
    ∧ (startStep (stopStep s)).doneGen ∉ (startStep (stopStep s)).firedGens
    ∧ (startStep (stopStep s)).doneGen ≠ s.doneGen
    ∧ ∀ line v, parseNumber (trimSpace line) = some v →
        (lineStep (startStep (stopStep s)) line).points = s.points ++ [v]
        ∧ (lineStep (startStep (stopStep s)) line).renderRequests
            = s.renderRequests + 1 := by
  refine ⟨by simp [stopStep], rfl, ?_, stopStart_gen_not_fired s hInv, ?_, ?_⟩
  · simp only [stopStep, List.mem_cons, not_or]
    exact ⟨by omega, fun hmem => absurd (hInv _ hmem) (by omega)⟩
  · simp [startStep, stopStep]
  · intro line v h
    have hl := stopStart_loops_ne_nil s
    have hm : s.doneGen + 1 ∉ s.firedGens :=
      fun hmem => absurd (hInv _ hmem) (by omega)
    simp [lineStep, hl, h, startStep, stopStep, hm]

/-- Witness for C8 from the freshly started worker (after a first start, stop
fires generation `0`, installs generation `1`, and a restarted loop still
appends the arriving `"8"`). -/
theorem stop_fresh_signal_witness :
    (stopStep (startStep initWorker)).doneGen
        ∉ (stopStep (startStep initWorker)).firedGens
    ∧ (lineStep (startStep (stopStep (startStep initWorker))) "8").points
        = (startStep initWorker).points ++ [8] := by
  refine ⟨(stop_fresh_signal (startStep initWorker) (by decide)).2.2.1, ?_⟩
  exact ((stop_fresh_signal (startStep initWorker) (by decide)).2.2.2.2.2 "8" 8
    (by decide)).1

/-! ## ReferenceTable, ParameterResolver and OperationQueue drain

Modelled from the spec: the resolver/drain implementation lives in the hosting
`vdom` runtime, outside this repository's sources; only its contract is given,
by `src/canvas-prompt.md` (lines 36-84: `#ref:<id>`, `#spreadRef:<id>`, the
`Ref` capture field, and the reserved `addRef`/`dropRef` pseudo-operations) and
by spec §3, §4.1, §4.2 and §6. -/

/-- Try to strip the expected leading characters from a character list:
`some rest` when the list is exactly the expected characters followed by
`rest`. -/
def dropPre : List Char → List Char → Option (List Char)
  | [], cs => some cs
  | _ :: _, [] => none
  | p :: ps, c :: cs => if c = p then dropPre ps cs else none

lemma dropPre_self_append : ∀ (p cs : List Char), dropPre p (p ++ cs) = some cs
  | [], _ => rfl
  | _ :: ps, cs => by simp [dropPre, dropPre_self_append ps cs]

lemma mkData (s : String) : String.mk s.data = s := rfl

lemma dropPre_ref_hit (cs : List Char) :
    dropPre ['#', 'r', 'e', 'f', ':'] ('#' :: 'r' :: 'e' :: 'f' :: ':' :: cs)
      = some cs :=
  dropPre_self_append ['#', 'r', 'e', 'f', ':'] cs

lemma dropPre_spread_hit (cs : List Char) :
    dropPre ['#', 's', 'p', 'r', 'e', 'a', 'd', 'R', 'e', 'f', ':']
      ('#' :: 's' :: 'p' :: 'r' :: 'e' :: 'a' :: 'd' :: 'R' :: 'e' :: 'f' :: ':' :: cs)
      = some cs :=
  dropPre_self_append ['#', 's', 'p', 'r', 'e', 'a', 'd', 'R', 'e', 'f', ':'] cs

lemma dropPre_ref_on_spread (cs : List Char) :
    dropPre ['#', 'r', 'e', 'f', ':']
      ('#' :: 's' :: 'p' :: 'r' :: 'e' :: 'a' :: 'd' :: 'R' :: 'e' :: 'f' :: ':' :: cs)
      = none := rfl

/-- Modelled from the spec (§7): the per-operation drain error taxonomy that
the resolver can produce — `ResolutionError` (id absent at drain time) and
`TypeMismatch` (`#spreadRef:` target not an ordered sequence). -/
inductive RefErr where
  | resolutionError (id : String)
  | typeMismatch (id : String)
  deriving DecidableEq, Repr

/-- Modelled from the spec (§4.2): the per-surface ReferenceTable, a mapping
from string ids to values. -/
abbrev RefTable := List (String × JVal)

/-- Modelled from the spec (§4.2): `dropRef(id)` — remove, no-op if absent. -/
def dropRef : RefTable → String → RefTable
  | [], _ => []
  | (k, v) :: rest, id =>
    if k = id then dropRef rest id else (k, v) :: dropRef rest id

/-- Modelled from the spec (§4.2): `addRef(id, value)` — insert or overwrite. -/
def addRef (t : RefTable) (id : String) (v : JVal) : RefTable :=
  (id, v) :: dropRef t id

/-- Modelled from the spec (§4.2): `get(id)` — the stored value, or `none` as
the distinguished "missing" result. -/
def getRef : RefTable → String → Option JVal
  | [], _ => none
  | (k, v) :: rest, id => if k = id then some v else getRef rest id

/-- Modelled from the spec (§4.1, §6): resolve one parameter against the
table. A string of the exact form `#ref:<id>` becomes the one stored value; a
string of the exact form `#spreadRef:<id>` becomes the elements of the stored
ordered sequence (to be spliced positionally); anything else passes through
unchanged as a single parameter. A missing id is a `ResolutionError`, a
`#spreadRef:` target that is not an array is a `TypeMismatch`. -/
def resolveParam (t : RefTable) (p : JVal) : Except RefErr (List JVal) :=
  match p with
  | JVal.str s =>
    match dropPre "#ref:".data s.data with
    | some idCs =>
      match getRef t (String.mk idCs) with
      | some v => Except.ok [v]
      | none => Except.error (RefErr.resolutionError (String.mk idCs))
    | none =>
      match dropPre "#spreadRef:".data s.data with
      | some idCs =>
        match getRef t (String.mk idCs) with
        | some (JVal.arr xs) => Except.ok xs
        | some _ => Except.error (RefErr.typeMismatch (String.mk idCs))
        | none => Except.error (RefErr.resolutionError (String.mk idCs))
      | none => Except.ok [p]
  | q => Except.ok [q]

/-- Modelled from the spec (§4.1): resolve a parameter list, splicing each
parameter's resolution positionally; the first failure aborts (only) this
operation's resolution. -/
def resolveParams (t : RefTable) : List JVal → Except RefErr (List JVal)
  | [] => Except.ok []
  | p :: rest =>
    match resolveParam t p with
    | Except.error e => Except.error e
    | Except.ok vs =>
      match resolveParams t rest with
      | Except.error e => Except.error e
      | Except.ok tail => Except.ok (vs ++ tail)

/-- C4: a parameter string of the exact form `#ref:<id>` resolves to the table
value stored under `<id>`; a parameter string of the exact form
`#spreadRef:<id>` is spliced positionally — the elements of the referenced
sequence are prepended, in order, to the resolution of the remaining
parameters, not passed as one array argument; and concretely, after
`addRef("g", [1,2,3])`, the parameter list `["#spreadRef:g", 4]` resolves to
`[1, 2, 3, 4]`. -/
theorem ref_resolution (t : RefTable) (id : String) (v : JVal)
    (xs rest : List JVal) :
    (getRef t id = some v →
      resolveParam t (JVal.str ("#ref:" ++ id)) = Except.ok [v])
    ∧ (getRef t id = some (JVal.arr xs) →
      resolveParams t (JVal.str ("#spreadRef:" ++ id) :: rest)
        = (resolveParams t rest).map (fun tail => xs ++ tail))
    ∧ resolveParams (addRef [] "g" (JVal.arr [JVal.num 1, JVal.num 2, JVal.num 3]))
        [JVal.str "#spreadRef:g", JVal.num 4]
        = Except.ok [JVal.num 1, JVal.num 2, JVal.num 3, JVal.num 4] := by
  refine ⟨?_, ?_, rfl⟩
  · intro h
    simp [resolveParam, dropPre_ref_hit, mkData, h]
  · intro h
    have hp : resolveParam t (JVal.str ("#spreadRef:" ++ id)) = Except.ok xs := by
      simp [resolveParam, dropPre_ref_on_spread, dropPre_spread_hit, mkData, h]
    have hcons : resolveParams t (JVal.str ("#spreadRef:" ++ id) :: rest)
        = match resolveParam t (JVal.str ("#spreadRef:" ++ id)) with
          | Except.error e => Except.error e
          | Except.ok vs =>
            match resolveParams t rest with
            | Except.error e => Except.error e
            | Except.ok tail => Except.ok (vs ++ tail) := rfl
    rw [hcons, hp]
    cases hr : resolveParams t rest <;> simp [Except.map]

/-- Witness for C4, the spec's own §8 test: after `addRef("x", 7)` the
parameter `"#ref:x"` resolves to the stored `7`. -/
theorem ref_resolution_witness :
    resolveParam (addRef [] "x" (JVal.num 7)) (JVal.str "#ref:x")
      = Except.ok [JVal.num 7] :=
  (ref_resolution (addRef [] "x" (JVal.num 7)) "x" (JVal.num 7) [] []).1 rfl

/-- Modelled from the spec (§3): an operation — primitive name, ordered
parameter list, and an optional capture name (`captureAs`; the `Ref` field of
`VDomRefOperation` in `src/canvas-prompt.md`). -/
structure Operation where
  name : String
  params : List JVal
  captureAs : Option String

/-- An operation is one of the two reserved pseudo-operations (§4.1), which
bypass the surface entirely. -/
def isPseudoOp (op : Operation) : Prop :=
  op.name = "addRef" ∨ op.name = "dropRef"

instance (op : Operation) : Decidable (isPseudoOp op) := by
  unfold isPseudoOp
  infer_instance

/-- A parameter is a placeholder: a string of the exact form `#ref:<id>` or
`#spreadRef:<id>`. -/
def isPlaceholder (p : JVal) : Bool :=
  match p with
  | JVal.str s =>
    (dropPre "#ref:".data s.data).isSome
      || (dropPre "#spreadRef:".data s.data).isSome
  | _ => false

/-- An operation contains a placeholder parameter. -/
def hasPlaceholder (op : Operation) : Bool :=
  op.params.any isPlaceholder

/-- The observable outcome of draining a queue: the primitive invocations
submitted to the surface in order (name and resolved parameters), the
collected per-operation failures, and the final reference table. -/
structure DrainResult where
  trace : List (String × List JVal)
  errors : List RefErr
  table : RefTable

/-- Modelled from the spec (§4.1): drain one operation. `addRef` stores its
literal supplied data under the capture name without touching the surface;
`dropRef` removes the named entry; any other operation resolves its parameters
against the table — a failure is collected and only this operation is skipped —
and on success the primitive is invoked on the surface (appended to the trace),
its return value being stored under `captureAs` when set. `surface` gives the
value each primitive invocation returns. -/
def drainStep (surface : String → List JVal → JVal) (acc : DrainResult)
    (op : Operation) : DrainResult :=
  if op.name = "addRef" then
    match op.captureAs with
    | some id =>
      let data := match op.params with
        | [v] => v
        | vs => JVal.arr vs
      { acc with table := addRef acc.table id data }
    | none => acc
  else if op.name = "dropRef" then
    match op.params with
    | [JVal.str id] => { acc with table := dropRef acc.table id }
    | _ => acc
  else
    match resolveParams acc.table op.params with
    | Except.error e => { acc with errors := acc.errors ++ [e] }
    | Except.ok args =>
      let acc1 := { acc with trace := acc.trace ++ [(op.name, args)] }
      match op.captureAs with
      | some id => { acc1 with table := addRef acc1.table id (surface op.name args) }
      | none => acc1

/-- Modelled from the spec (§4.1): drain a frozen queue in append order
against a surface, starting from the surface's reference table. -/
def drain (surface : String → List JVal → JVal) (t : RefTable)
    (q : List Operation) : DrainResult :=
  q.foldl (drainStep surface) ⟨[], [], t⟩

/-- The spec's words for the right-hand side of claim C5: invoking each
operation's primitive directly on the surface, in append order, with its
literal parameters. -/
def directTrace (q : List Operation) : List (String × List JVal) :=
  q.map (fun op => (op.name, op.params))

lemma resolveParam_plain (t : RefTable) (p : JVal)
    (h : isPlaceholder p = false) : resolveParam t p = Except.ok [p] := by
  cases p with
  | str s =>
    cases h1 : dropPre "#ref:".data s.data with
    | some l => simp [isPlaceholder, h1] at h
    | none =>
      cases h2 : dropPre "#spreadRef:".data s.data with
      | some l => simp [isPlaceholder, h1, h2] at h
      | none => simp [resolveParam, h1, h2]
  | null => rfl
  | bool b => rfl
  | num q => rfl
  | arr xs => rfl

lemma resolveParams_lit (t : RefTable) (ps : List JVal)
    (h : ∀ p ∈ ps, isPlaceholder p = false) :
    resolveParams t ps = Except.ok ps := by
  induction ps with
  | nil => rfl
  | cons p rest ih =>
    have hp := resolveParam_plain t p (h p (by simp))
    have hr := ih (fun q hq => h q (by simp [hq]))
    simp [resolveParams, hp, hr]

lemma drain_go (f : String → List JVal → JVal) (q : List Operation) :
    ∀ acc : DrainResult,
      (∀ op ∈ q, hasPlaceholder op = false ∧ ¬ isPseudoOp op) →
      (q.foldl (drainStep f) acc).trace = acc.trace ++ directTrace q
      ∧ (q.foldl (drainStep f) acc).errors = acc.errors := by
  induction q with
  | nil => intro acc _; simp [directTrace]
  | cons op rest ih =>
    intro acc h
    have hop := h op (by simp)
    have hrest : ∀ o ∈ rest, hasPlaceholder o = false ∧ ¬ isPseudoOp o :=
      fun o ho => h o (by simp [ho])
    have h1 : ¬ op.name = "addRef" := fun hc => hop.2 (Or.inl hc)
    have h2 : ¬ op.name = "dropRef" := fun hc => hop.2 (Or.inr hc)
    have hall : ∀ p ∈ op.params, isPlaceholder p = false := by
      have := hop.1
      simpa [hasPlaceholder] using this
    have hres : resolveParams acc.table op.params = Except.ok op.params :=
      resolveParams_lit _ _ hall
    have hstep : (drainStep f acc op).trace = acc.trace ++ [(op.name, op.params)]
        ∧ (drainStep f acc op).errors = acc.errors := by
      unfold drainStep
      rw [if_neg h1, if_neg h2, hres]
      cases op.captureAs <;> simp
    have hih := ih (drainStep f acc op) hrest
    rw [List.foldl_cons]
    refine ⟨?_, ?_⟩
    · rw [hih.1, hstep.1]
      simp [directTrace]
    · rw [hih.2, hstep.2]

/-- C5: for every queue whose operations are surface primitives (not the
reserved pseudo-operations) and contain no placeholder parameters, draining
against any surface produces exactly the primitive invocations of the
operations, in append order, each with its literal parameter list — the spec's
"invoke each primitive directly" reading — and no failures. -/
theorem drain_literal_equiv (f : String → List JVal → JVal) (t : RefTable)
    (q : List Operation)
    (h1 : ∀ op ∈ q, hasPlaceholder op = false)
    (h2 : ∀ op ∈ q, ¬ isPseudoOp op) :
    (drain f t q).trace = directTrace q ∧ (drain f t q).errors = [] := by
  have h := drain_go f q ⟨[], [], t⟩ (fun op hop => ⟨h1 op hop, h2 op hop⟩)
  simpa [drain] using h

/-- The spec's §8 drain scenario: `beginPath`, `arc(10,10,5,0,6.28)`, `fill`. -/
def exampleQueue : List Operation :=
  [⟨"beginPath", [], none⟩,
   ⟨"arc", [JVal.num 10, JVal.num 10, JVal.num 5, JVal.num 0,
            JVal.num (628 / 100)], none⟩,
   ⟨"fill", [], none⟩]

/-- Witness for C5 on the spec's three-operation scenario queue: the drain
trace is exactly the three primitive calls in order, with no failures. -/
theorem drain_literal_equiv_witness :
    (drain (fun _ _ => JVal.null) [] exampleQueue).trace = directTrace exampleQueue
    ∧ (drain (fun _ _ => JVal.null) [] exampleQueue).errors = [] :=
  drain_literal_equiv (fun _ _ => JVal.null) [] exampleQueue
    (by decide) (by decide)
